import Mathlib

/-!
Verification of the gogis geometry codec (github.com/restayway/gogis).

The repository stores four geometry shapes (Point, LineString, Polygon,
GeometryCollection) and converts them between a binary wire format (WKB,
delivered hex-encoded) and a textual one (WKT with an SRID marker).

Modelling conventions used throughout this file:
* A byte stream is a `List Nat` (each entry one byte value).
* A Go `float64` coordinate is represented by its IEEE-754 bit pattern,
  a `Nat`; the decoders only move those 8-byte patterns around, so decode
  behaviour is captured exactly.  The text encoders print coordinates with
  Go's `%v` verb (shortest round-trip decimal, implemented by the Go
  standard library, outside this repository); that formatter is abstracted
  as an explicit function argument `fv : Nat → String` from bit patterns
  to their printed form.  Go prints the zero value `0.0` as `"0"`, which
  enters theorems as the hypothesis `fv 0 = "0"` where needed.
* `binary.Read` fills its target only after the whole read succeeds
  (it performs an `io.ReadFull` into a scratch buffer first), so a failed
  read leaves the destination field untouched; the model mirrors that.
* `Scan(val any)` receives a dynamically typed database value; the
  constructors of `GoValue` below are the cases the Go type switches
  distinguish: SQL NULL, `string`, `[]uint8`, and every other dynamic
  type (represented by its printed type name, as `%T` would show it).
-/

namespace Gogis

/-- Byte order resolved from the leading WKB marker byte. -/
inductive Endian where
  | big
  | little
deriving Repr, DecidableEq

/-- `Point` from point.go: two float64 coordinates, modelled by their
IEEE-754 bit patterns. -/
structure Point where
  lng : Nat
  lat : Nat
deriving Repr, DecidableEq

/-- `LineString` from linestring.go: an ordered sequence of points. -/
structure LineString where
  points : List Point
deriving Repr, DecidableEq

/-- `Polygon` from polygon.go: an ordered sequence of rings. -/
structure Polygon where
  rings : List (List Point)
deriving Repr, DecidableEq

/-- The closed set of shapes that can sit behind the `Geometry`
interface in this repository (geometry_collection.go declares the
interface; the four concrete types implement it). -/
inductive Geometry where
  | point (p : Point)
  | linestring (ls : LineString)
  | polygon (pg : Polygon)
  | collection (gs : List Geometry)
deriving Repr

/-- `GeometryCollection` from geometry_collection.go. -/
structure GeometryCollection where
  geometries : List Geometry
deriving Repr

/-- The distinguishable error outcomes of the Go `Scan` methods
(each constructor corresponds to one `fmt.Errorf`/returned-error site;
the payloads record what the format verbs would print). -/
inductive ScanErr where
  | eof
  | invalidHex
  | invalidByteOrder (b : Nat)
  | invalidElemByteOrder (b : Nat) (i : Nat)
  | typeMismatch (shape : String) (tag : Nat)
  | unsupportedElement (tag : Nat)
  | unsupportedInput (ty : String) (into : String)
deriving Repr, DecidableEq

/-- Outcome of a `Scan` call on a destination of type `σ`: success with
the destination's new state, an error together with the state the
receiver is left in, or a runtime panic. -/
inductive ScanResult (σ : Type) where
  | ok (s : σ)
  | err (e : ScanErr) (s : σ)
  | panics
deriving Repr, DecidableEq

/-- The dynamic categories of the `val any` argument of `Scan`. -/
inductive GoValue where
  | goNil
  | goStr (s : String)
  | goBytes (s : String)
  | goOther (ty : String)
deriving Repr, DecidableEq

/-! ### Byte-stream primitives (`bytes.Reader` + `encoding/binary`) -/

/-- Big-endian value of a byte list. -/
def beNat (bs : List Nat) : Nat := bs.foldl (fun a b => a * 256 + b) 0

/-- Multi-byte value of a byte list under a resolved byte order. -/
def ordVal : Endian → List Nat → Nat
  | .big, bs => beNat bs
  | .little, bs => beNat bs.reverse

/-- `binary.Read` of a `k`-byte unsigned integer: consume exactly `k`
bytes or fail (an `io.ReadFull` that comes up short writes nothing). -/
def readUInt (bo : Endian) (k : Nat) (s : List Nat) : Option (Nat × List Nat) :=
  if k ≤ s.length then some (ordVal bo (s.take k), s.drop k) else none

/-- Big-endian encoding of `n` into `k` bytes. -/
def putBE : Nat → Nat → List Nat
  | 0, _ => []
  | k + 1, n => putBE k (n / 256) ++ [n % 256]

/-- Byte-order-aware `k`-byte encoding of `n`. -/
def putUInt : Endian → Nat → Nat → List Nat
  | .big, k, n => putBE k n
  | .little, k, n => (putBE k n).reverse

/-- The marker byte that selects a byte order (`0` big, `1` little). -/
def orderByte : Endian → Nat
  | .big => 0
  | .little => 1

/-- The `switch wkbByteOrder` shared by every decoder: `0` selects
big-endian, `1` selects little-endian, anything else is rejected. -/
def resolveOrder (b : Nat) : Option Endian :=
  if b = 0 then some .big else if b = 1 then some .little else none

/-! ### Hex decoding (`hex.DecodeString`) -/

/-- Value of one hexadecimal digit character, if it is one. -/
def hexDigitVal (c : Char) : Option Nat :=
  if '0' ≤ c ∧ c ≤ '9' then some (c.toNat - '0'.toNat)
  else if 'a' ≤ c ∧ c ≤ 'f' then some (c.toNat - 'a'.toNat + 10)
  else if 'A' ≤ c ∧ c ≤ 'F' then some (c.toNat - 'A'.toNat + 10)
  else none

/-- Pairwise hex decoding; odd length or a non-hex character fails
(the Go callers treat any `hex.DecodeString` error as fatal). -/
def hexPairs : List Char → Option (List Nat)
  | [] => some []
  | [_] => none
  | c1 :: c2 :: rest =>
    match hexDigitVal c1, hexDigitVal c2, hexPairs rest with
    | some h, some l, some bs => some ((h * 16 + l) :: bs)
    | _, _, _ => none

/-- `hex.DecodeString` on the text content of the scanned value. -/
def hexDecode (s : String) : Option (List Nat) := hexPairs s.data

/-! ### Text encoders (the `String()` methods) -/

/-- `strings.Join(parts, ",")`. -/
def joinComma (l : List String) : String := String.intercalate "," l

/-- `Point.String`: `fmt.Sprintf("SRID=4326;POINT(%v %v)", p.Lng, p.Lat)`,
with the `%v` float formatter passed in as `fv`. -/
def pointStringFmt (fv : Nat → String) (p : Point) : String :=
  "SRID=4326;POINT(" ++ fv p.lng ++ " " ++ fv p.lat ++ ")"

/-- The `"%v %v"` rendering of one coordinate pair. -/
def pairStringFmt (fv : Nat → String) (p : Point) : String :=
  fv p.lng ++ " " ++ fv p.lat

/-- `LineString.String`. -/
def lineStringStringFmt (fv : Nat → String) (ls : LineString) : String :=
  if ls.points.length = 0 then "SRID=4326;LINESTRING EMPTY"
  else "SRID=4326;LINESTRING(" ++ joinComma (ls.points.map (pairStringFmt fv)) ++ ")"

/-- `Polygon.String`. -/
def polygonStringFmt (fv : Nat → String) (pg : Polygon) : String :=
  if pg.rings.length = 0 then "SRID=4326;POLYGON EMPTY"
  else "SRID=4326;POLYGON(" ++
    joinComma (pg.rings.map (fun ring =>
      "(" ++ joinComma (ring.map (pairStringFmt fv)) ++ ")")) ++ ")"

/-- The SRID-stripping step of `GeometryCollection.String`:
`if idx := strings.Index(str, ";"); idx != -1 { str = str[idx+1:] }` —
drop everything up to and including the first `';'`, or keep the
string unchanged when it has none. -/
def dropSRID (s : String) : String :=
  if ';' ∈ s.data then ⟨(s.data.dropWhile (fun c => c ≠ ';')).tail⟩ else s

mutual

/-- Dynamic dispatch of the `Geometry` interface's `String()` method:
each branch is the corresponding concrete method. -/
def geomKindString (fv : Nat → String) : Geometry → String
  | .point p => pointStringFmt fv p
  | .linestring ls => lineStringStringFmt fv ls
  | .polygon pg => polygonStringFmt fv pg
  | .collection gs =>
    if gs.length = 0 then "SRID=4326;GEOMETRYCOLLECTION EMPTY"
    else "SRID=4326;GEOMETRYCOLLECTION(" ++ joinComma (geomStrings fv gs) ++ ")"

/-- The loop body of `GeometryCollection.String`: render each element
with its own `String()` and strip its SRID marker. -/
def geomStrings (fv : Nat → String) : List Geometry → List String
  | [] => []
  | g :: gs => dropSRID (geomKindString fv g) :: geomStrings fv gs

end

/-- `GeometryCollection.String` as the method on the struct. -/
def gcStringFmt (fv : Nat → String) (gc : GeometryCollection) : String :=
  geomKindString fv (.collection gc.geometries)

/-! ### Decoders (the `Scan` methods)

Loop results carry the partial receiver state on failure, because the Go
decoders mutate their receiver in place: a `make` pre-fills a sequence
with zero values and each successful `binary.Read` fills one field. -/

/-- The zero `Point` a `make([]Point, n)` fills slots with. -/
def zeroPoint : Point := ⟨0, 0⟩

/-- Result of an in-place filling loop: the parsed values plus the rest
of the stream, or an error plus the partial state the receiver holds. -/
inductive Fill (α : Type) where
  | done (a : α) (rest : List Nat)
  | fail (e : ScanErr) (a : α)
deriving Repr, DecidableEq

/-- The point-filling loop shared by `LineString.Scan`, `Polygon.Scan`
and the collection element bodies: the target was pre-filled with `n`
zero points, and each iteration reads `Lng` then `Lat` (8 bytes each);
a failed read leaves the remaining slots (and, after a lone `Lng`, the
`Lat` field) at zero. -/
def readPointsInto (bo : Endian) : Nat → List Nat → Fill (List Point)
  | 0, s => .done [] s
  | n + 1, s =>
    match readUInt bo 8 s with
    | none => .fail .eof (List.replicate (n + 1) zeroPoint)
    | some (x, s1) =>
      match readUInt bo 8 s1 with
      | none => .fail .eof (⟨x, 0⟩ :: List.replicate n zeroPoint)
      | some (y, s2) =>
        match readPointsInto bo n s2 with
        | .done ps rest => .done (⟨x, y⟩ :: ps) rest
        | .fail e ps => .fail e (⟨x, y⟩ :: ps)

/-- The ring loop of `Polygon.Scan`: `p.Rings` was pre-filled with `n`
nil rings; each iteration reads a 4-byte point count, allocates the
ring, and fills it. -/
def readRingsInto (bo : Endian) : Nat → List Nat → Fill (List (List Point))
  | 0, s => .done [] s
  | n + 1, s =>
    match readUInt bo 4 s with
    | none => .fail .eof (List.replicate (n + 1) [])
    | some (np, s1) =>
      match readPointsInto bo np s1 with
      | .fail e ps => .fail e (ps :: List.replicate n [])
      | .done ps rest =>
        match readRingsInto bo n rest with
        | .done rs r2 => .done (ps :: rs) r2
        | .fail e rs => .fail e (ps :: rs)

/-- `Point.Scan` after byte-order resolution: reads the 8-byte type tag
(the value is never compared against anything), then
`binary.Read(r, byteOrder, p)` fills both coordinates in one atomic
read of 16 bytes. -/
def pointScanBody (dest : Point) (bo : Endian) (s : List Nat) : ScanResult Point :=
  match readUInt bo 8 s with
  | none => .err .eof dest
  | some (_, s1) =>
    match readUInt bo 8 s1 with
    | none => .err .eof dest
    | some (x, s2) =>
      match readUInt bo 8 s2 with
      | none => .err .eof dest
      | some (y, _) => .ok ⟨x, y⟩

/-- The count-plus-points body of `LineString.Scan` (after the tag and
any SRID field have been consumed). -/
def lsReadBody (dest : LineString) (bo : Endian) (s : List Nat) : ScanResult LineString :=
  match readUInt bo 4 s with
  | none => .err .eof dest
  | some (np, s1) =>
    match readPointsInto bo np s1 with
    | .done ps _ => .ok ⟨ps⟩
    | .fail e ps => .err e ⟨ps⟩

/-- `LineString.Scan` after byte-order resolution: a 4-byte tag whose
low 29 bits must equal `2`; bit `0x20000000` signals an extra 4-byte
SRID field that is read and discarded. -/
def lineStringScanBody (dest : LineString) (bo : Endian) (s : List Nat) :
    ScanResult LineString :=
  match readUInt bo 4 s with
  | none => .err .eof dest
  | some (tag, s1) =>
    if tag &&& 0x1FFFFFFF ≠ 2 then .err (.typeMismatch "LineString" tag) dest
    else if tag &&& 0x20000000 ≠ 0 then
      match readUInt bo 4 s1 with
      | none => .err .eof dest
      | some (_, s2) => lsReadBody dest bo s2
    else lsReadBody dest bo s1

/-- `Polygon.Scan` after byte-order resolution: an 8-byte tag that must
equal `3`, a 4-byte ring count, then the rings. -/
def polygonScanBody (dest : Polygon) (bo : Endian) (s : List Nat) : ScanResult Polygon :=
  match readUInt bo 8 s with
  | none => .err .eof dest
  | some (tag, s1) =>
    if tag ≠ 3 then .err (.typeMismatch "Polygon" tag) dest
    else
      match readUInt bo 4 s1 with
      | none => .err .eof dest
      | some (nr, s2) =>
        match readRingsInto bo nr s2 with
        | .done rs _ => .ok ⟨rs⟩
        | .fail e rs => .err e ⟨rs⟩

/-- Result of decoding one collection element: the element never joins
`gc.Geometries` unless it decodes completely (the loop bodies build it
in a local variable and append on success). -/
inductive ElemRes where
  | done (g : Geometry) (rest : List Nat)
  | fail (e : ScanErr)
deriving Repr

/-- One iteration of the `GeometryCollection.Scan` loop, for element
index `i`: a fresh byte-order marker, an 8-byte tag, then the body of
the tagged shape; tags other than 1, 2, 3 are rejected. -/
def readElem (i : Nat) (s : List Nat) : ElemRes :=
  match readUInt .little 1 s with
  | none => .fail .eof
  | some (w, s0) =>
    match resolveOrder w with
    | none => .fail (.invalidElemByteOrder w i)
    | some bo =>
      match readUInt bo 8 s0 with
      | none => .fail .eof
      | some (tag, s1) =>
        if tag = 1 then
          match readUInt bo 8 s1 with
          | none => .fail .eof
          | some (x, s2) =>
            match readUInt bo 8 s2 with
            | none => .fail .eof
            | some (y, s3) => .done (.point ⟨x, y⟩) s3
        else if tag = 2 then
          match readUInt bo 4 s1 with
          | none => .fail .eof
          | some (np, s2) =>
            match readPointsInto bo np s2 with
            | .done ps rest => .done (.linestring ⟨ps⟩) rest
            | .fail e _ => .fail e
        else if tag = 3 then
          match readUInt bo 4 s1 with
          | none => .fail .eof
          | some (nr, s2) =>
            match readRingsInto bo nr s2 with
            | .done rs rest => .done (.polygon ⟨rs⟩) rest
            | .fail e _ => .fail e
        else .fail (.unsupportedElement tag)

/-- The element loop of `GeometryCollection.Scan`: `n` elements still to
read, `i` the index of the next one; `gc.Geometries` starts empty and
grows by one append per fully decoded element. -/
def readElems : Nat → Nat → List Nat → Fill (List Geometry)
  | 0, _, s => .done [] s
  | n + 1, i, s =>
    match readElem i s with
    | .fail e => .fail e []
    | .done g rest =>
      match readElems n (i + 1) rest with
      | .done gs r => .done (g :: gs) r
      | .fail e gs => .fail e (g :: gs)

/-- `GeometryCollection.Scan` after byte-order resolution: an 8-byte tag
that must equal `7`, a 4-byte element count, then the element loop. -/
def gcScanBody (dest : GeometryCollection) (bo : Endian) (s : List Nat) :
    ScanResult GeometryCollection :=
  match readUInt bo 8 s with
  | none => .err .eof dest
  | some (tag, s1) =>
    if tag ≠ 7 then .err (.typeMismatch "GeometryCollection" tag) dest
    else
      match readUInt bo 4 s1 with
      | none => .err .eof dest
      | some (n, s2) =>
        match readElems n 0 s2 with
        | .done gs _ => .ok ⟨gs⟩
        | .fail e gs => .err e ⟨gs⟩

/-- The shared front of every `Scan`: read the marker byte with
`binary.Read(r, binary.LittleEndian, &wkbByteOrder)` and run the
`switch` on it, then hand the remaining stream to the body. -/
def scanBytes {σ : Type} (dest : σ) (body : σ → Endian → List Nat → ScanResult σ)
    (b : List Nat) : ScanResult σ :=
  match readUInt .little 1 b with
  | none => .err .eof dest
  | some (w, r1) =>
    match resolveOrder w with
    | none => .err (.invalidByteOrder w) dest
    | some bo => body dest bo r1

/-- `Point.Scan` on bytes. -/
def pointScanBytes (dest : Point) (b : List Nat) : ScanResult Point :=
  scanBytes dest pointScanBody b

/-- `LineString.Scan` on bytes. -/
def lineStringScanBytes (dest : LineString) (b : List Nat) : ScanResult LineString :=
  scanBytes dest lineStringScanBody b

/-- `Polygon.Scan` on bytes. -/
def polygonScanBytes (dest : Polygon) (b : List Nat) : ScanResult Polygon :=
  scanBytes dest polygonScanBody b

/-- `GeometryCollection.Scan` on bytes. -/
def gcScanBytes (dest : GeometryCollection) (b : List Nat) : ScanResult GeometryCollection :=
  scanBytes dest gcScanBody b

/-- The input dispatch shared by `LineString.Scan`, `Polygon.Scan` and
`GeometryCollection.Scan`: a `nil` value is a successful no-op, a
`[]uint8` or `string` value is hex-decoded, and any other dynamic type
is rejected with `cannot scan type %T into <shape>`. -/
def scanValue {σ : Type} (into : String) (dest : σ)
    (body : σ → Endian → List Nat → ScanResult σ) (v : GoValue) : ScanResult σ :=
  match v with
  | .goNil => .ok dest
  | .goBytes s =>
    match hexDecode s with
    | none => .err .invalidHex dest
    | some b => scanBytes dest body b
  | .goStr s =>
    match hexDecode s with
    | none => .err .invalidHex dest
    | some b => scanBytes dest body b
  | .goOther ty => .err (.unsupportedInput ty into) dest

/-- `Point.Scan`: unlike the other three decoders its input dispatch is
`val.([]uint8)` with an `ok` check followed by an UNCHECKED
`val.(string)` assertion, so any other dynamic type panics instead of
returning an error. -/
def pointScan (dest : Point) (v : GoValue) : ScanResult Point :=
  match v with
  | .goNil => .ok dest
  | .goBytes s =>
    match hexDecode s with
    | none => .err .invalidHex dest
    | some b => pointScanBytes dest b
  | .goStr s =>
    match hexDecode s with
    | none => .err .invalidHex dest
    | some b => pointScanBytes dest b
  | .goOther _ => .panics

/-- `LineString.Scan`. -/
def lineStringScan (dest : LineString) (v : GoValue) : ScanResult LineString :=
  scanValue "LineString" dest lineStringScanBody v

/-- `Polygon.Scan`. -/
def polygonScan (dest : Polygon) (v : GoValue) : ScanResult Polygon :=
  scanValue "Polygon" dest polygonScanBody v

/-- `GeometryCollection.Scan`. -/
def gcScan (dest : GeometryCollection) (v : GoValue) : ScanResult GeometryCollection :=
  scanValue "GeometryCollection" dest gcScanBody v

/-! ### Byte encoders used to state parsing properties, and their
round-trip lemmas -/

/-- The wire form of one coordinate pair. -/
def putPoint (bo : Endian) (p : Point) : List Nat :=
  putUInt bo 8 p.lng ++ putUInt bo 8 p.lat

/-- The wire form of a point sequence. -/
def putPoints (bo : Endian) (ps : List Point) : List Nat :=
  (ps.map (putPoint bo)).flatten

/-- The wire form of a ring list (count of each ring, then its points). -/
def putRings (bo : Endian) (rs : List (List Point)) : List Nat :=
  (rs.map (fun r => putUInt bo 4 r.length ++ putPoints bo r)).flatten

/-- Coordinate bit patterns fit in 8 bytes. -/
def pointOk (p : Point) : Prop := p.lng < 256 ^ 8 ∧ p.lat < 256 ^ 8

/-- Encodability of one collection element: in-range coordinates and
counts, and not itself a collection. -/
def elemOk : Geometry → Prop
  | .point p => pointOk p
  | .linestring ls => ls.points.length < 256 ^ 4 ∧ ∀ p ∈ ls.points, pointOk p
  | .polygon pg =>
      pg.rings.length < 256 ^ 4 ∧
      ∀ r ∈ pg.rings, r.length < 256 ^ 4 ∧ ∀ p ∈ r, pointOk p
  | .collection _ => False

/-- The wire form of one collection element (marker, tag, body). -/
def putElem (bo : Endian) : Geometry → List Nat
  | .point p => orderByte bo :: (putUInt bo 8 1 ++ putPoint bo p)
  | .linestring ls =>
      orderByte bo ::
        (putUInt bo 8 2 ++ putUInt bo 4 ls.points.length ++ putPoints bo ls.points)
  | .polygon pg =>
      orderByte bo ::
        (putUInt bo 8 3 ++ putUInt bo 4 pg.rings.length ++ putRings bo pg.rings)
  | .collection _ => []

theorem beNat_foldl (a : Nat) (l : List Nat) :
    l.foldl (fun x b => x * 256 + b) a = a * 256 ^ l.length + beNat l := by
  induction l generalizing a with
  | nil => simp [beNat]
  | cons b t ih =>
    have hb : beNat (b :: t) = t.foldl (fun x c => x * 256 + c) b := by
      simp [beNat]
    simp only [List.foldl_cons, ih (a * 256 + b), hb, ih b, List.length_cons]
    ring

theorem beNat_append (l m : List Nat) :
    beNat (l ++ m) = beNat l * 256 ^ m.length + beNat m := by
  simpa [beNat, List.foldl_append] using beNat_foldl (beNat l) m

@[simp] theorem putBE_length (k n : Nat) : (putBE k n).length = k := by
  induction k generalizing n with
  | zero => simp [putBE]
  | succ k ih => simp [putBE, ih]

@[simp] theorem putUInt_length (bo : Endian) (k n : Nat) :
    (putUInt bo k n).length = k := by
  cases bo <;> simp [putUInt]

theorem beNat_putBE {k n : Nat} (h : n < 256 ^ k) : beNat (putBE k n) = n := by
  induction k generalizing n with
  | zero =>
    interval_cases n
    simp [putBE, beNat]
  | succ k ih =>
    have hdiv : n / 256 < 256 ^ k := by
      rw [Nat.div_lt_iff_lt_mul (by norm_num)]
      calc n < 256 ^ (k + 1) := h
        _ = 256 ^ k * 256 := by ring
    rw [putBE, beNat_append, ih hdiv]
    simp [beNat]
    omega

theorem ordVal_putUInt (bo : Endian) {k n : Nat} (h : n < 256 ^ k) :
    ordVal bo (putUInt bo k n) = n := by
  cases bo <;> simp [ordVal, putUInt, beNat_putBE h]

theorem readUInt_put (bo : Endian) {k n : Nat} (rest : List Nat) (h : n < 256 ^ k) :
    readUInt bo k (putUInt bo k n ++ rest) = some (n, rest) := by
  have hlen : (putUInt bo k n).length = k := putUInt_length bo k n
  rw [readUInt, if_pos (by simp [hlen])]
  rw [List.take_left' hlen, List.drop_left' hlen, ordVal_putUInt bo h]

@[simp] theorem readUInt_cons_one (bo : Endian) (b : Nat) (s : List Nat) :
    readUInt bo 1 (b :: s) = some (b, s) := by
  rw [readUInt, if_pos (by simp)]
  cases bo <;> simp [ordVal, beNat]

@[simp] theorem resolveOrder_orderByte (bo : Endian) :
    resolveOrder (orderByte bo) = some bo := by
  cases bo <;> simp [resolveOrder, orderByte]

theorem readPointsInto_done_length (bo : Endian) :
    ∀ (n : Nat) (s : List Nat) (ps : List Point) (rest : List Nat),
      readPointsInto bo n s = .done ps rest → ps.length = n := by
  intro n
  induction n with
  | zero =>
    intro s ps rest h
    simp only [readPointsInto] at h
    cases h
    rfl
  | succ n ih =>
    intro s ps rest h
    rw [readPointsInto] at h
    cases h8 : readUInt bo 8 s with
    | none => simp only [h8] at h; cases h
    | some v =>
      obtain ⟨x, s1⟩ := v
      simp only [h8] at h
      cases h8' : readUInt bo 8 s1 with
      | none => simp only [h8'] at h; cases h
      | some v' =>
        obtain ⟨y, s2⟩ := v'
        simp only [h8'] at h
        cases hrec : readPointsInto bo n s2 with
        | done ps' rest' =>
          simp only [hrec] at h
          cases h
          simp [ih _ _ _ hrec]
        | fail e a => simp only [hrec] at h; cases h

theorem readPointsInto_put (bo : Endian) (ps : List Point) (rest : List Nat)
    (h : ∀ p ∈ ps, pointOk p) :
    readPointsInto bo ps.length (putPoints bo ps ++ rest) = .done ps rest := by
  induction ps with
  | nil => simp [putPoints, readPointsInto]
  | cons p t ih =>
    obtain ⟨x, y⟩ := p
    have hx : x < 256 ^ 8 := (h ⟨x, y⟩ (by simp)).1
    have hy : y < 256 ^ 8 := (h ⟨x, y⟩ (by simp)).2
    have ht : ∀ q ∈ t, pointOk q := fun q hq => h q (by simp [hq])
    have ihe := ih ht
    simp only [putPoints, List.map_cons, List.flatten_cons, List.length_cons,
      putPoint, List.append_assoc] at ihe ⊢
    rw [readPointsInto]
    simp only [readUInt_put bo _ hx, readUInt_put bo _ hy, ihe]

theorem readRingsInto_done_length (bo : Endian) :
    ∀ (n : Nat) (s : List Nat) (rs : List (List Point)) (rest : List Nat),
      readRingsInto bo n s = .done rs rest → rs.length = n := by
  intro n
  induction n with
  | zero =>
    intro s rs rest h
    simp only [readRingsInto] at h
    cases h
    rfl
  | succ n ih =>
    intro s rs rest h
    rw [readRingsInto] at h
    cases h4 : readUInt bo 4 s with
    | none => simp only [h4] at h; cases h
    | some v =>
      obtain ⟨np, s1⟩ := v
      simp only [h4] at h
      cases hpts : readPointsInto bo np s1 with
      | fail e ps => simp only [hpts] at h; cases h
      | done ps r2 =>
        simp only [hpts] at h
        cases hrec : readRingsInto bo n r2 with
        | done rs' r3 =>
          simp only [hrec] at h
          cases h
          simp [ih _ _ _ hrec]
        | fail e a => simp only [hrec] at h; cases h

theorem readRingsInto_put (bo : Endian) (rs : List (List Point)) (rest : List Nat)
    (h : ∀ r ∈ rs, r.length < 256 ^ 4 ∧ ∀ p ∈ r, pointOk p) :
    readRingsInto bo rs.length (putRings bo rs ++ rest) = .done rs rest := by
  induction rs with
  | nil => simp [putRings, readRingsInto]
  | cons r t ih =>
    have hrl : r.length < 256 ^ 4 := (h r (by simp)).1
    have hrp : ∀ p ∈ r, pointOk p := (h r (by simp)).2
    have ht : ∀ r' ∈ t, r'.length < 256 ^ 4 ∧ ∀ p ∈ r', pointOk p :=
      fun r' hr' => h r' (by simp [hr'])
    have ihe := ih ht
    have hpts := readPointsInto_put bo r
      ((t.map (fun r => putUInt bo 4 r.length ++ putPoints bo r)).flatten ++ rest) hrp
    simp only [putRings, List.map_cons, List.flatten_cons, List.length_cons,
      List.append_assoc] at ihe ⊢
    rw [readRingsInto]
    simp only [readUInt_put bo _ hrl, hpts, ihe]

theorem readElem_put (bo : Endian) (i : Nat) (g : Geometry) (rest : List Nat)
    (hg : elemOk g) :
    readElem i (putElem bo g ++ rest) = .done g rest := by
  cases g with
  | collection gs => exact absurd hg (by simp [elemOk])
  | point p =>
    obtain ⟨x, y⟩ := p
    have hx : x < 256 ^ 8 := hg.1
    have hy : y < 256 ^ 8 := hg.2
    simp only [putElem, putPoint, List.cons_append, List.append_assoc]
    rw [readElem]
    simp only [readUInt_cons_one, resolveOrder_orderByte,
      readUInt_put bo _ (show (1 : Nat) < 256 ^ 8 by norm_num),
      readUInt_put bo _ hx, readUInt_put bo _ hy, reduceIte]
  | linestring ls =>
    obtain ⟨pts⟩ := ls
    have hn : pts.length < 256 ^ 4 := hg.1
    have hp : ∀ p ∈ pts, pointOk p := hg.2
    have hpts := readPointsInto_put bo pts rest hp
    simp only [putElem, List.cons_append, List.append_assoc]
    rw [readElem]
    simp only [readUInt_cons_one, resolveOrder_orderByte,
      readUInt_put bo _ (show (2 : Nat) < 256 ^ 8 by norm_num),
      readUInt_put bo _ hn, hpts, reduceIte]
    norm_num
  | polygon pg =>
    obtain ⟨rs⟩ := pg
    have hn : rs.length < 256 ^ 4 := hg.1
    have hr : ∀ r ∈ rs, r.length < 256 ^ 4 ∧ ∀ p ∈ r, pointOk p := hg.2
    have hrs := readRingsInto_put bo rs rest hr
    simp only [putElem, List.cons_append, List.append_assoc]
    rw [readElem]
    simp only [readUInt_cons_one, resolveOrder_orderByte,
      readUInt_put bo _ (show (3 : Nat) < 256 ^ 8 by norm_num),
      readUInt_put bo _ hn, hrs, reduceIte]
    norm_num

theorem readElems_done_length :
    ∀ (n i : Nat) (s : List Nat) (gs : List Geometry) (rest : List Nat),
      readElems n i s = .done gs rest → gs.length = n := by
  intro n
  induction n with
  | zero =>
    intro i s gs rest h
    simp only [readElems] at h
    cases h
    rfl
  | succ n ih =>
    intro i s gs rest h
    rw [readElems] at h
    cases he : readElem i s with
    | fail e => simp only [he] at h; cases h
    | done g r1 =>
      simp only [he] at h
      cases hrec : readElems n (i + 1) r1 with
      | done gs' r2 =>
        simp only [hrec] at h
        cases h
        simp [ih _ _ _ _ hrec]
      | fail e a => simp only [hrec] at h; cases h

theorem readElems_put (bo : Endian) (gs : List Geometry) :
    ∀ (i : Nat) (rest : List Nat), (∀ g ∈ gs, elemOk g) →
      readElems gs.length i ((gs.map (putElem bo)).flatten ++ rest) = .done gs rest := by
  induction gs with
  | nil => intro i rest _; simp [readElems]
  | cons g t ih =>
    intro i rest h
    have hg := h g (by simp)
    have ht : ∀ g' ∈ t, elemOk g' := fun g' hg' => h g' (by simp [hg'])
    simp only [List.map_cons, List.flatten_cons, List.length_cons, List.append_assoc]
    rw [readElems]
    simp only [readElem_put bo i g _ hg, ih (i + 1) rest ht]

theorem readElems_fail_head (n i : Nat) (s : List Nat) (e : ScanErr)
    (h : readElem i s = .fail e) : readElems (n + 1) i s = .fail e [] := by
  rw [readElems, h]

/-! ### String-side helper lemmas -/

theorem data_append (s t : String) : (s ++ t).data = s.data ++ t.data := by
  cases s
  cases t
  rfl

theorem geomStrings_eq_map (fv : Nat → String) (gs : List Geometry) :
    geomStrings fv gs = gs.map (fun g => dropSRID (geomKindString fv g)) := by
  induction gs with
  | nil => simp [geomStrings]
  | cons g t ih => simp [geomStrings, ih]

theorem dropSRID_of_no_semi (s : String) (h : ';' ∉ s.data) : dropSRID s = s := by
  simp [dropSRID, h]

theorem dropSRID_first_semi (l r : List Char) (h : ';' ∉ l) :
    dropSRID ⟨l ++ ';' :: r⟩ = ⟨r⟩ := by
  have hmem : ';' ∈ l ++ ';' :: r := List.mem_append_right _ (List.mem_cons_self _ _)
  have hdrop : (l ++ ';' :: r).dropWhile (fun c => c ≠ ';') = ';' :: r := by
    have hl : l.dropWhile (fun c => decide (c ≠ ';')) = [] := by
      rw [List.dropWhile_eq_nil_iff]
      intro c hc
      simp only [decide_eq_true_eq]
      exact fun hcs => h (hcs ▸ hc)
    rw [List.dropWhile_append, hl]
    simp [List.dropWhile]
  simp only [dropSRID, if_pos hmem, hdrop, List.tail_cons]

/-- The rendered form of a point can never be the `EMPTY` sentinel text:
character 15 is `(` on one side and a space on the other. -/
theorem point_text_ne_empty_text (x y : String) :
    "SRID=4326;POINT(" ++ x ++ " " ++ y ++ ")" ≠ "SRID=4326;POINT EMPTY" := by
  intro h
  have hd := congrArg String.data h
  simp only [data_append, List.append_assoc] at hd
  simp only [List.cons_append, List.nil_append, List.cons.injEq] at hd
  exact absurd hd.2.2.2.2.2.2.2.2.2.2.2.2.2.2.2.1 (by decide)

/-! ### Claim theorems -/

/-- C1 counterexample: a hex input with a valid byte-order marker (`01`)
and type tag `2` (not the Point tag `1`) is accepted by `Point.Scan`
without any error — the decoder goes on to read the two coordinates
(bit patterns 1 and 2 here) from the stream.  So `Point.Scan` does not
return a `TypeMismatch` error on a mismatched tag. -/
theorem point_scan_accepts_mismatched_tag_cex :
    pointScan ⟨0, 0⟩
        (.goStr "010200000000000000010000000000000002000000000000000200000000000000")
      = .ok ⟨1, 2⟩ := by
  rfl

/-- C1 (amended): `Point.Scan` reads the 8-byte type tag but never
compares it against anything; for every tag value the decode proceeds
to read two 8-byte coordinates and succeeds. -/
theorem point_scan_tag_unchecked (dest : Point) (bo : Endian) (tag x y : Nat)
    (rest : List Nat) (htag : tag < 256 ^ 8) (hx : x < 256 ^ 8) (hy : y < 256 ^ 8) :
    pointScanBytes dest
        (orderByte bo :: (putUInt bo 8 tag ++ (putUInt bo 8 x ++ (putUInt bo 8 y ++ rest))))
      = .ok ⟨x, y⟩ := by
  rw [pointScanBytes, scanBytes]
  simp only [readUInt_cons_one, resolveOrder_orderByte, pointScanBody,
    readUInt_put bo _ htag, readUInt_put bo _ hx, readUInt_put bo _ hy]

/-- Witness for C1 (amended) at tag 2. -/
theorem point_scan_tag_unchecked_witness :
    (2 : Nat) < 256 ^ 8 ∧
    pointScanBytes ⟨0, 0⟩
        (orderByte .little ::
          (putUInt .little 8 2 ++ (putUInt .little 8 1 ++ (putUInt .little 8 2 ++ []))))
      = .ok ⟨1, 2⟩ :=
  ⟨by norm_num,
   point_scan_tag_unchecked ⟨0, 0⟩ .little 2 1 2 []
     (by norm_num) (by norm_num) (by norm_num)⟩

/-- C2 counterexample: `Point.Scan` on an input that is neither nil nor
a string nor a byte array (here one of Go dynamic type `int`) panics
(unchecked `val.(string)` type assertion) instead of returning an
error. -/
theorem point_scan_unsupported_input_panics_cex :
    pointScan ⟨0, 0⟩ (.goOther "int") = .panics := rfl

/-- C2 (amended): on an input value that is neither nil, nor a string,
nor a byte array, `LineString.Scan`, `Polygon.Scan` and
`GeometryCollection.Scan` return the `cannot scan type %T` error naming
the input's type and leave the destination unmodified, but `Point.Scan`
panics on such inputs. -/
theorem scan_unsupported_input_behaviour (ty : String) (p : Point) (ls : LineString)
    (pg : Polygon) (gc : GeometryCollection) :
    lineStringScan ls (.goOther ty) = .err (.unsupportedInput ty "LineString") ls
    ∧ polygonScan pg (.goOther ty) = .err (.unsupportedInput ty "Polygon") pg
    ∧ gcScan gc (.goOther ty) = .err (.unsupportedInput ty "GeometryCollection") gc
    ∧ pointScan p (.goOther ty) = .panics :=
  ⟨rfl, rfl, rfl, rfl⟩

/-- C6: a zero-length sequence — whether a nil slice or an allocated
empty one, both of which this model represents as the empty list —
renders as the shape keyword plus `EMPTY` under the SRID prefix, for
LineString, Polygon and GeometryCollection alike. -/
theorem empty_shapes_render_empty (fv : Nat → String) :
    lineStringStringFmt fv ⟨[]⟩ = "SRID=4326;LINESTRING EMPTY"
    ∧ polygonStringFmt fv ⟨[]⟩ = "SRID=4326;POLYGON EMPTY"
    ∧ gcStringFmt fv ⟨[]⟩ = "SRID=4326;GEOMETRYCOLLECTION EMPTY"
    ∧ geomKindString fv (.collection []) = "SRID=4326;GEOMETRYCOLLECTION EMPTY" := by
  refine ⟨rfl, rfl, ?_, ?_⟩ <;> simp [gcStringFmt, geomKindString]

/-- C8: scanning a nil input is a successful no-op for all four shapes:
no error, and the destination keeps exactly its prior state. -/
theorem scan_nil_noop (p : Point) (ls : LineString) (pg : Polygon)
    (gc : GeometryCollection) :
    pointScan p .goNil = .ok p
    ∧ lineStringScan ls .goNil = .ok ls
    ∧ polygonScan pg .goNil = .ok pg
    ∧ gcScan gc .goNil = .ok gc :=
  ⟨rfl, rfl, rfl, rfl⟩

/-- C10: `Point.String` always renders `SRID=4326;POINT(lng lat)` with
both coordinates printed, never the `EMPTY` sentinel; with Go's `%v`
printing the zero float64 as `0`, the zero Point renders exactly
`SRID=4326;POINT(0 0)`. -/
theorem point_string_never_empty (fv : Nat → String) (p : Point) (hz : fv 0 = "0") :
    pointStringFmt fv p = "SRID=4326;POINT(" ++ fv p.lng ++ " " ++ fv p.lat ++ ")"
    ∧ pointStringFmt fv p ≠ "SRID=4326;POINT EMPTY"
    ∧ pointStringFmt fv ⟨0, 0⟩ = "SRID=4326;POINT(0 0)" := by
  refine ⟨rfl, point_text_ne_empty_text _ _, ?_⟩
  rw [pointStringFmt, hz]
  rfl

/-- Witness for C10 with a formatter that prints the zero pattern as
`0`. -/
theorem point_string_never_empty_witness :
    (fun _ : Nat => "0") 0 = "0"
    ∧ pointStringFmt (fun _ => "0") ⟨0, 0⟩ = "SRID=4326;POINT(0 0)" :=
  ⟨rfl, (point_string_never_empty (fun _ => "0") ⟨0, 0⟩ rfl).2.2⟩

/-- C3: marker `0` selects big-endian, marker `1` little-endian, any
other marker value fails the decode with the invalid-byte-order error —
at the outer level of all four decoders and independently for each
collection element, where an element failure aborts the whole decode. -/
theorem byte_order_resolution (b : Nat) (hb0 : b ≠ 0) (hb1 : b ≠ 1) :
    resolveOrder 0 = some .big
    ∧ resolveOrder 1 = some .little
    ∧ resolveOrder b = none
    ∧ (∀ (rest : List Nat) (p : Point) (ls : LineString) (pg : Polygon)
        (gc : GeometryCollection),
        pointScanBytes p (b :: rest) = .err (.invalidByteOrder b) p
        ∧ lineStringScanBytes ls (b :: rest) = .err (.invalidByteOrder b) ls
        ∧ polygonScanBytes pg (b :: rest) = .err (.invalidByteOrder b) pg
        ∧ gcScanBytes gc (b :: rest) = .err (.invalidByteOrder b) gc)
    ∧ (∀ (i : Nat) (s : List Nat),
        readElem i (b :: s) = .fail (.invalidElemByteOrder b i))
    ∧ (∀ (n i : Nat) (s : List Nat) (e : ScanErr),
        readElem i s = .fail e → readElems (n + 1) i s = .fail e [])
    ∧ (∀ (dest : GeometryCollection) (bo : Endian) (n : Nat) (s : List Nat)
        (e : ScanErr) (gs : List Geometry), n < 256 ^ 4 →
        readElems n 0 s = .fail e gs →
        gcScanBody dest bo (putUInt bo 8 7 ++ (putUInt bo 4 n ++ s)) = .err e ⟨gs⟩) := by
  have hres : resolveOrder b = none := by simp [resolveOrder, hb0, hb1]
  refine ⟨rfl, rfl, hres, ?_, ?_, ?_, ?_⟩
  · intro rest p ls pg gc
    refine ⟨?_, ?_, ?_, ?_⟩ <;>
      simp [pointScanBytes, lineStringScanBytes, polygonScanBytes, gcScanBytes,
        scanBytes, hres]
  · intro i s
    rw [readElem]
    simp [hres]
  · exact readElems_fail_head
  · intro dest bo n s e gs hn hfail
    rw [gcScanBody]
    simp only [readUInt_put bo _ (show (7 : Nat) < 256 ^ 8 by norm_num),
      readUInt_put bo _ hn, hfail]
    norm_num

/-- Witness for C3 at marker value 2. -/
theorem byte_order_resolution_witness :
    resolveOrder 2 = none
    ∧ pointScanBytes ⟨0, 0⟩ [2] = .err (.invalidByteOrder 2) ⟨0, 0⟩
    ∧ readElem 0 [2] = .fail (.invalidElemByteOrder 2 0)
    ∧ readElems 1 0 [2] = .fail (.invalidElemByteOrder 2 0) [] := by
  have h := byte_order_resolution 2 (by decide) (by decide)
  exact ⟨h.2.2.1, (h.2.2.2.1 [] ⟨0, 0⟩ ⟨[]⟩ ⟨[]⟩ ⟨[]⟩).1, h.2.2.2.2.1 0 [],
    h.2.2.2.2.2.1 0 0 [2] _ (h.2.2.2.2.1 0 [])⟩

/-- C4: the LineString decoder reads a 4-byte tag; if the masked base
tag (low 29 bits) is not `2` it fails with the type-mismatch error; if
the `0x20000000` flag is set it additionally consumes and discards a
4-byte SRID field before the count-and-points body, whose result does
not depend on the discarded value; without the flag no extra field is
consumed. -/
theorem linestring_tag_flag_handling (dest : LineString) (bo : Endian) (tag : Nat)
    (s : List Nat) (htag : tag < 256 ^ 4) :
    (tag &&& 0x1FFFFFFF ≠ 2 →
      lineStringScanBody dest bo (putUInt bo 4 tag ++ s)
        = .err (.typeMismatch "LineString" tag) dest)
    ∧ (tag &&& 0x1FFFFFFF = 2 → tag &&& 0x20000000 ≠ 0 →
        ∀ (srid : Nat), srid < 256 ^ 4 → ∀ (s' : List Nat),
        lineStringScanBody dest bo (putUInt bo 4 tag ++ (putUInt bo 4 srid ++ s'))
          = lsReadBody dest bo s')
    ∧ (tag &&& 0x1FFFFFFF = 2 → tag &&& 0x20000000 = 0 →
        lineStringScanBody dest bo (putUInt bo 4 tag ++ s) = lsReadBody dest bo s) := by
  refine ⟨?_, ?_, ?_⟩
  · intro hmask
    rw [lineStringScanBody]
    simp [readUInt_put bo _ htag, hmask]
  · intro hmask hflag srid hsrid s'
    rw [lineStringScanBody]
    simp [readUInt_put bo _ htag, readUInt_put bo _ hsrid, hmask, hflag]
  · intro hmask hflag
    rw [lineStringScanBody]
    simp [readUInt_put bo _ htag, hmask, hflag]

/-- Witness for C4 at the flagged tag `0x20000002` (SRID consumed and
discarded) and the plain mismatched tag `3`. -/
theorem linestring_tag_flag_handling_witness :
    lineStringScanBody ⟨[]⟩ .little
        (putUInt .little 4 0x20000002 ++ (putUInt .little 4 4326 ++ (putUInt .little 4 0 ++ [])))
      = lsReadBody ⟨[]⟩ .little (putUInt .little 4 0 ++ [])
    ∧ lineStringScanBody ⟨[]⟩ .little (putUInt .little 4 3 ++ [])
      = .err (.typeMismatch "LineString" 3) ⟨[]⟩ :=
  ⟨(linestring_tag_flag_handling ⟨[]⟩ .little 0x20000002 [] (by norm_num)).2.1
      (by decide) (by decide) 4326 (by norm_num) _,
   (linestring_tag_flag_handling ⟨[]⟩ .little 3 [] (by norm_num)).1 (by decide)⟩

/-- C5: inside a collection, an element whose 8-byte tag is not 1, 2 or
3 — tag 7, a nested collection, included — fails the whole decode with
the unsupported-element error; elements tagged 1, 2, 3 decode to the
Point, LineString and Polygon variants respectively (the wire forms
`putElem` builds carry exactly those tags) and the loop returns them in
stream order. -/
theorem gc_element_dispatch (bo : Endian) (i : Nat) (tag : Nat) (s : List Nat)
    (htag : tag < 256 ^ 8) (h1 : tag ≠ 1) (h2 : tag ≠ 2) (h3 : tag ≠ 3) :
    readElem i (orderByte bo :: (putUInt bo 8 tag ++ s)) = .fail (.unsupportedElement tag)
    ∧ (∀ (g : Geometry) (rest : List Nat) (j : Nat), elemOk g →
        readElem j (putElem bo g ++ rest) = .done g rest)
    ∧ (∀ (gs : List Geometry) (rest : List Nat) (j : Nat), (∀ g ∈ gs, elemOk g) →
        readElems gs.length j ((gs.map (putElem bo)).flatten ++ rest) = .done gs rest) := by
  refine ⟨?_, ?_, ?_⟩
  · rw [readElem]
    simp [readUInt_put bo _ htag, h1, h2, h3]
  · exact fun g rest j hg => readElem_put bo j g rest hg
  · exact fun gs rest j hgs => readElems_put bo gs j rest hgs

/-- Witness for C5: tag 7 is rejected; a Point element and a LineString
element round-trip in stream order. -/
theorem gc_element_dispatch_witness :
    readElem 0 (orderByte .little :: (putUInt .little 8 7 ++ []))
      = .fail (.unsupportedElement 7)
    ∧ readElems 2 0
        (([Geometry.point ⟨1, 2⟩, Geometry.linestring ⟨[]⟩].map (putElem .little)).flatten ++ [])
      = .done [Geometry.point ⟨1, 2⟩, Geometry.linestring ⟨[]⟩] [] := by
  have h := gc_element_dispatch .little 0 7 [] (by norm_num) (by decide) (by decide) (by decide)
  refine ⟨h.1, ?_⟩
  have h2 := h.2.2 [Geometry.point ⟨1, 2⟩, Geometry.linestring ⟨[]⟩] [] 0 ?_
  · exact h2
  · intro g hg
    simp only [List.mem_cons, List.not_mem_nil, or_false] at hg
    rcases hg with rfl | rfl
    · exact ⟨by norm_num, by norm_num⟩
    · exact ⟨by norm_num, by simp⟩

/-- C7: a non-empty collection renders by calling each element's own
encoder, discarding everything up to and including the first `;` of the
child's text (a child without `;` is kept verbatim), and joining the
results with commas inside the collection wrapper. -/
theorem gc_string_strips_child_srid (fv : Nat → String) (gs : List Geometry)
    (hne : gs ≠ []) :
    gcStringFmt fv ⟨gs⟩ =
      "SRID=4326;GEOMETRYCOLLECTION(" ++
        joinComma (gs.map (fun g => dropSRID (geomKindString fv g))) ++ ")"
    ∧ (∀ s : String, ';' ∉ s.data → dropSRID s = s)
    ∧ (∀ (l r : List Char), ';' ∉ l → dropSRID ⟨l ++ ';' :: r⟩ = ⟨r⟩) := by
  refine ⟨?_, dropSRID_of_no_semi, dropSRID_first_semi⟩
  rw [gcStringFmt, geomKindString]
  rw [if_neg (by simpa using hne)]
  rw [geomStrings_eq_map]

/-- Witness for C7 on a one-point collection and a semicolon-free
child text. -/
theorem gc_string_strips_child_srid_witness :
    gcStringFmt (fun _ => "0") ⟨[Geometry.point ⟨0, 0⟩]⟩ =
      "SRID=4326;GEOMETRYCOLLECTION(" ++
        joinComma ([Geometry.point ⟨0, 0⟩].map
          (fun g => dropSRID (geomKindString (fun _ => "0") g))) ++ ")"
    ∧ dropSRID "POINT(0 0)" = "POINT(0 0)" := by
  have h := gc_string_strips_child_srid (fun _ => "0") [Geometry.point ⟨0, 0⟩] (by simp)
  exact ⟨h.1, h.2.1 "POINT(0 0)" (by decide)⟩

/-- C9: every decode that succeeds returns sequences whose lengths equal
their declared count fields — the point loop, the ring loop and the
element loop each return exactly as many items as requested — and the
wire round-trips show the declared counts and the stream order are
reproduced exactly for LineString, Polygon and GeometryCollection. -/
theorem decoded_lengths_match_counts :
    (∀ (bo : Endian) (n : Nat) (s : List Nat) (ps : List Point) (rest : List Nat),
      readPointsInto bo n s = .done ps rest → ps.length = n)
    ∧ (∀ (bo : Endian) (n : Nat) (s : List Nat) (rs : List (List Point)) (rest : List Nat),
      readRingsInto bo n s = .done rs rest → rs.length = n)
    ∧ (∀ (n i : Nat) (s : List Nat) (gs : List Geometry) (rest : List Nat),
      readElems n i s = .done gs rest → gs.length = n)
    ∧ (∀ (bo : Endian) (dest : LineString) (ps : List Point) (rest : List Nat),
      ps.length < 256 ^ 4 → (∀ p ∈ ps, pointOk p) →
      lineStringScanBytes dest
          (orderByte bo :: (putUInt bo 4 2 ++ (putUInt bo 4 ps.length ++ (putPoints bo ps ++ rest))))
        = .ok ⟨ps⟩)
    ∧ (∀ (bo : Endian) (dest : Polygon) (rs : List (List Point)) (rest : List Nat),
      rs.length < 256 ^ 4 → (∀ r ∈ rs, r.length < 256 ^ 4 ∧ ∀ p ∈ r, pointOk p) →
      polygonScanBytes dest
          (orderByte bo :: (putUInt bo 8 3 ++ (putUInt bo 4 rs.length ++ (putRings bo rs ++ rest))))
        = .ok ⟨rs⟩)
    ∧ (∀ (bo : Endian) (dest : GeometryCollection) (gs : List Geometry) (rest : List Nat),
      gs.length < 256 ^ 4 → (∀ g ∈ gs, elemOk g) →
      gcScanBytes dest
          (orderByte bo :: (putUInt bo 8 7 ++ (putUInt bo 4 gs.length ++ ((gs.map (putElem bo)).flatten ++ rest))))
        = .ok ⟨gs⟩) := by
  refine ⟨readPointsInto_done_length, readRingsInto_done_length,
    fun n i s gs rest h => readElems_done_length n i s gs rest h, ?_, ?_, ?_⟩
  · intro bo dest ps rest hn hps
    rw [lineStringScanBytes, scanBytes]
    simp [lineStringScanBody, lsReadBody, readUInt_cons_one, resolveOrder_orderByte,
      readUInt_put bo _ (show (2 : Nat) < 256 ^ 4 by norm_num),
      readUInt_put bo _ hn, readPointsInto_put bo ps rest hps,
      show ((2 : Nat) &&& 536870911) = 2 by decide,
      show ((2 : Nat) &&& 536870912) = 0 by decide]
  · intro bo dest rs rest hn hrs
    rw [polygonScanBytes, scanBytes]
    simp only [readUInt_cons_one, resolveOrder_orderByte, polygonScanBody,
      readUInt_put bo _ (show (3 : Nat) < 256 ^ 8 by norm_num),
      readUInt_put bo _ hn, readRingsInto_put bo rs rest hrs]
    norm_num
  · intro bo dest gs rest hn hgs
    rw [gcScanBytes, scanBytes]
    simp only [readUInt_cons_one, resolveOrder_orderByte, gcScanBody,
      readUInt_put bo _ (show (7 : Nat) < 256 ^ 8 by norm_num),
      readUInt_put bo _ hn, readElems_put bo gs 0 rest hgs]
    norm_num

/-- Witness for C9 on concrete one-element streams. -/
theorem decoded_lengths_match_counts_witness :
    lineStringScanBytes ⟨[]⟩
        (orderByte .little ::
          (putUInt .little 4 2 ++
            (putUInt .little 4 [Point.mk 1 2].length ++ (putPoints .little [⟨1, 2⟩] ++ []))))
      = .ok ⟨[⟨1, 2⟩]⟩
    ∧ polygonScanBytes ⟨[]⟩
        (orderByte .little ::
          (putUInt .little 8 3 ++
            (putUInt .little 4 [[Point.mk 1 2]].length ++ (putRings .little [[⟨1, 2⟩]] ++ []))))
      = .ok ⟨[[⟨1, 2⟩]]⟩
    ∧ gcScanBytes ⟨[]⟩
        (orderByte .little ::
          (putUInt .little 8 7 ++
            (putUInt .little 4 [Geometry.point ⟨1, 2⟩].length ++
              (([Geometry.point ⟨1, 2⟩].map (putElem .little)).flatten ++ []))))
      = .ok ⟨[Geometry.point ⟨1, 2⟩]⟩ := by
  refine ⟨decoded_lengths_match_counts.2.2.2.1 .little ⟨[]⟩ [⟨1, 2⟩] [] (by norm_num) ?_,
    decoded_lengths_match_counts.2.2.2.2.1 .little ⟨[]⟩ [[⟨1, 2⟩]] [] (by norm_num) ?_,
    decoded_lengths_match_counts.2.2.2.2.2 .little ⟨[]⟩ [Geometry.point ⟨1, 2⟩] []
      (by norm_num) ?_⟩
  · intro p hp
    cases hp with
    | head => exact ⟨by norm_num, by norm_num⟩
    | tail _ h => cases h
  · intro r hr
    cases hr with
    | head =>
      refine ⟨by norm_num, ?_⟩
      intro p hp
      cases hp with
      | head => exact ⟨by norm_num, by norm_num⟩
      | tail _ h => cases h
    | tail _ h => cases h
  · intro g hg
    cases hg with
    | head => exact ⟨by norm_num, by norm_num⟩
    | tail _ h => cases h

end Gogis
